import Mathlib

/-!
Verification of the `mocha-gitlab-reporter` repository: a shallow embedding
of the reporter's core logic (file path transforms, suite caching, the
finalize pass of `getXml`, the generic XML builder) together with theorems
settling the specification claims.

Source artefacts embedded here:
* the reporter class in the repository README (current implementation):
  `configureDefaults`, `parseFilePathTransforms`, `generateSuiteTitle`,
  `isInvalidSuite`, `_onSuiteBegin`, `getTestsuiteData`,
  `appendFileAttribute`, `getXml`, `writeXmlToDisk`;
* the XML builder module (`src/lib/xml-builder.js`, present in two copies:
  one driven by `src/lib/xml-constants.js`, one with inline literals).
-/

namespace MochaGitLab

/-! ## JavaScript value model

A small model of the JavaScript values flowing through the reporter:
strings, numbers (integers suffice for the claims), booleans, `null`,
`undefined`, arrays and plain objects (ordered key/value lists, mirroring
JS insertion-ordered string keys).
-/

inductive JVal where
  | jstr (s : String)
  | jnum (n : Int)
  | jbool (b : Bool)
  | jnull
  | jundefined
  | jarr (items : List JVal)
  | jobj (fields : List (String × JVal))

/-- JS truthiness: `""`, `0`, `false`, `null`, `undefined` are falsy;
objects and arrays (even empty ones) are truthy. -/
def jsTruthy : JVal → Bool
  | .jstr s => !s.isEmpty
  | .jnum n => n != 0
  | .jbool b => b
  | .jnull => false
  | .jundefined => false
  | .jarr _ => true
  | .jobj _ => true

/-- Key lookup on a JS object: first binding wins (JS objects cannot hold
duplicate keys; the embedding reads the first occurrence). Non-objects have
no own properties here. -/
def jsLookup (v : JVal) (key : String) : Option JVal :=
  match v with
  | .jobj fields => fields.lookup key
  | _ => none

/-- JS `v?.key` (optional chaining): `undefined` when `v` is not an object or
the key is absent. -/
def jsOptChain (v : JVal) (key : String) : JVal :=
  (jsLookup v key).getD .jundefined

/-- JS `typeof v === "object"` (true for objects, arrays and `null`). -/
def jsTypeofIsObject : JVal → Bool
  | .jobj _ => true
  | .jarr _ => true
  | .jnull => true
  | _ => false

/-! ## File path transforms: application (`appendFileAttribute`)

`appendFileAttribute` runs the configured rules over the path in order:

```js
for (const transform of this._options.filePathTransforms) {
  try {
    if (typeof transform.search !== 'string' || typeof transform.replace !== 'string') {
      throw new TypeError('Invalid filePathTransforms entry');
    }
    const regex = new RegExp(transform.search);
    filePath = filePath.replace(regex, transform.replace);
  } catch (e) {
    debug('Skipping invalid filePathTransforms entry', transform, e?.message);
  }
}
```

The embedding models each configured rule in resolved form: `ok search
replace` for a rule whose fields are strings and whose pattern compiles
(the claims only exercise metacharacter-free literal patterns, for which
`String.prototype.replace` with a non-global regex replaces the first
occurrence literally), and `broken` for a rule whose field check, pattern
compilation or application throws — the catch block makes such a rule leave
`filePath` unchanged.
-/

inductive PathRule where
  | ok (search : String) (replace : String)
  | broken
deriving DecidableEq, Repr

/-- First-occurrence literal replacement on character lists: the semantics
of JS `str.replace(new RegExp(pat), rep)` for a metacharacter-free pattern
`pat` and a `$`-free replacement `rep` (an empty pattern matches at the
start, as in JS). -/
def replFirst (pat rep : List Char) : List Char → List Char
  | [] => if pat.isPrefixOf ([] : List Char) then rep else []
  | c :: cs =>
    if pat.isPrefixOf (c :: cs) then rep ++ (c :: cs).drop pat.length
    else c :: replFirst pat rep cs

/-- String wrapper for `replFirst`. -/
def jsReplaceFirst (pat rep s : String) : String :=
  String.mk (replFirst pat.data rep.data s.data)

/-- One iteration of the `appendFileAttribute` transform loop. -/
def applyRule (p : String) (r : PathRule) : String :=
  match r with
  | .broken => p
  | .ok search replace => jsReplaceFirst search replace p

/-- The whole transform loop: each rule's output feeds the next rule. -/
def applyFilePathTransforms (rules : List PathRule) (p : String) : String :=
  rules.foldl applyRule p

/-! ## `writeXmlToDisk`

```js
writeXmlToDisk(xml, filePath) {
  if (filePath) {
    debug("writing file to", filePath);
    fs.mkdirSync(path.dirname(filePath), { recursive: true });
    try {
      fs.writeFileSync(filePath, xml, "utf-8");
    } catch (error) {
      debug("problem writing results: " + error);
    }
    debug("results written successfully");
  }
}
```

The two filesystem calls are external collaborators; the embedding passes
their outcomes in explicitly. `mkdirSync` sits outside any try/catch, so
its failure propagates; the `writeFileSync` failure is caught and only
logged at debug level. -/
def writeXmlToDisk (filePath : String)
    (mkdirResult : Except String Unit) (writeResult : Except String Unit) :
    Except String Unit :=
  if filePath = "" then Except.ok ()
  else
    match mkdirResult with
    | .error e => .error e
    | .ok () =>
      match writeResult with
      | .ok () => .ok ()
      | .error _ => .ok ()

/-! ## JS number formatting and coercion

`getXml` formats durations with `Number.prototype.toFixed(3)` and, on a
repeated run, coerces an already-formatted string back to a number via
`/ 1000`. The embedding models JS numbers as rationals; on the decimal
values produced and consumed here the rational model agrees with IEEE
doubles. -/

/-- Split a character list at a separator character (used for the decimal
point below). -/
def splitOnChar (sep : Char) : List Char → List (List Char)
  | [] => [[]]
  | c :: cs =>
    match splitOnChar sep cs with
    | [] => [[c]]
    | g :: gs => if c = sep then [] :: g :: gs else (c :: g) :: gs

/-- JS `String.prototype.trim` on character lists: strip whitespace from
both ends. -/
def trimChars (s : List Char) : List Char :=
  ((s.dropWhile Char.isWhitespace).reverse.dropWhile Char.isWhitespace).reverse

/-- Left-pad a fractional part to three digits. -/
def pad3 (n : Nat) : String :=
  if n < 10 then "00" ++ toString n
  else if n < 100 then "0" ++ toString n
  else toString n

/-- JS `q.toFixed(3)`: three-decimal fixed formatting with rounding half up,
on the non-negative durations that occur in this reporter. -/
def fixed3 (q : ℚ) : String :=
  let m : ℤ := ⌊q * 1000 + 1 / 2⌋
  toString (m / 1000) ++ "." ++ pad3 (m % 1000).toNat

/-- Accumulate a digit list into a natural number. -/
def digitsToNat (ds : List Char) : Nat :=
  ds.foldl (fun a c => a * 10 + (c.toNat - '0'.toNat)) 0

/-- JS `Number(s)` for the decimal grammar relevant here (optional sign,
integer digits, optional fraction): `none` models `NaN`; the empty or
all-whitespace string coerces to `0` as in JS. -/
def jsStringToNumber (s : String) : Option ℚ :=
  let t := trimChars s.data
  if t.isEmpty then some 0
  else
    let (sign, rest) : ℚ × List Char :=
      match t with
      | '-' :: r => (-1, r)
      | '+' :: r => (1, r)
      | r => (1, r)
    match splitOnChar '.' rest with
    | [ipart] =>
      if !ipart.isEmpty && ipart.all Char.isDigit then
        some (sign * (digitsToNat ipart : ℚ))
      else none
    | [ipart, fpart] =>
      if (!ipart.isEmpty || !fpart.isEmpty)
          && ipart.all Char.isDigit && fpart.all Char.isDigit then
        some (sign * ((digitsToNat ipart : ℚ)
          + (digitsToNat fpart : ℚ) / 10 ^ fpart.length))
      else none
    | _ => none

/-- The dynamic type of a `time` attribute as the reporter leaves it:
a raw number (milliseconds on suites, seconds on testcases), a formatted
string after the finalize pass, or `undefined` (a suite that never saw a
`suite end` event). -/
inductive JsTime where
  | num (q : ℚ)
  | str (s : String)
  | undefinedTime
deriving DecidableEq, Repr

/-! ## Suite data model

`getTestsuiteData` builds `{ testsuite: [{ _attr: { name, timestamp,
tests } }] }`; outcome events push testcase records; `getXml` later adds
`time`/`failures`/`skipped` attributes. The embedding flattens the
`_attr` object into a record. The `timestamp` attribute and its rewrite to
a sliced ISO string in `getXml` are external `Date` behaviour and carried
as an untouched integer here; no claim concerns them. -/

structure SuiteAttr where
  name : String
  timestamp : Int
  tests : Int
  time : JsTime := .undefinedTime
  failures : Option Int := none
  skipped : Option Int := none
deriving DecidableEq, Repr

structure TestAttr where
  name : String
  time : JsTime
  classname : String
  file : Option String := none
deriving DecidableEq, Repr

/-- A child entry pushed onto a testcase's `testcase` array after the
leading `_attr` element: `{ "system-out": s }`, `{ "system-err": s }`,
`{ failure: {...} }` or `{ skipped: null }`. -/
inductive TCChild where
  | sysOut (s : String)
  | sysErr (s : String)
  | failureChild (message type cdata : String)
  | skippedChild
deriving DecidableEq, Repr

/-- One testcase node: the `testcase` array `[{_attr}, child, ...]` split
into its attribute head and its child tail. -/
structure TestcaseRec where
  attr : TestAttr
  children : List TCChild
deriving DecidableEq, Repr

/-- One suite node: the `testsuite` array `[{_attr}, testcase, ...]` split
into its attribute head and its testcase tail. -/
structure SuiteRec where
  attr : SuiteAttr
  cases : List TestcaseRec
deriving DecidableEq, Repr

/-! ## `getTestsuiteData` and the `_cachedFile` expando

```js
getTestsuiteData(suite) {
  const _attr = { name: generateSuiteTitle(suite), timestamp: this._Date.now(), tests: suite.tests.length };
  const testSuite = { testsuite: [{ _attr: _attr }] };
  if (!suite._cachedFile) {
    if (suite.file) {
      suite._cachedFile = suite.file;
    } else {
      let parent = suite.parent;
      while (parent) {
        if (parent.file) { suite._cachedFile = parent.file; break; }
        if (parent._cachedFile) { suite._cachedFile = parent._cachedFile; break; }
        parent = parent.parent;
      }
    }
  }
  return testSuite;
}
```

A runner suite is modeled with its own fields plus its ancestor chain
(nearest parent first). `file`/`cachedFile` use `Option String` where
`none` stands for an absent or otherwise falsy value. The returned pair
makes the in-place mutation of the caller-owned suite explicit: the second
component is the suite object as the call leaves it. -/

structure RunnerSuite where
  title : String
  root : Bool
  testsCount : Nat
  suitesCount : Nat
  file : Option String := none
  cachedFile : Option String := none
deriving DecidableEq, Repr

/-- External collaborator `strip-ansi`: removes ANSI escape sequences.
Modeled as the identity, with which the library agrees on the escape-free
strings appearing in every theorem below. -/
def stripAnsi (s : String) : String := s

/-- The label an ancestor contributes inside `generateSuiteTitle`'s loop. -/
def ancestorLabel (p : RunnerSuite) : String :=
  if p.root && p.title == "" then "Root Suite" else p.title

/-- Source `generateSuiteTitle(suite)`: "Root Suite" for an untitled root,
otherwise the dot-join of the ancestor labels (outermost first) and the
suite's own title, ANSI-stripped. -/
def generateSuiteTitle (suite : RunnerSuite) (ancestors : List RunnerSuite) : String :=
  if suite.root && suite.title == "" then "Root Suite"
  else stripAnsi (String.intercalate "."
    ((ancestors.reverse.map ancestorLabel) ++ [suite.title]))

/-- The ancestor walk of `getTestsuiteData`: the first ancestor carrying a
truthy `file`, else a truthy `_cachedFile`, wins. -/
def findAncestorFile : List RunnerSuite → Option String
  | [] => none
  | p :: ps =>
    match p.file with
    | some f => some f
    | none =>
      match p.cachedFile with
      | some f => some f
      | none => findAncestorFile ps

/-- Source `getTestsuiteData`: returns the fresh suite XML node and the (possibly
mutated) suite object. -/
def getTestsuiteData (now : Int) (suite : RunnerSuite)
    (ancestors : List RunnerSuite) : SuiteRec × RunnerSuite :=
  let node : SuiteRec :=
    { attr := { name := generateSuiteTitle suite ancestors,
                timestamp := now,
                tests := (suite.testsCount : Int) }
      cases := [] }
  let suite' :=
    if suite.cachedFile.isSome then suite
    else
      match suite.file with
      | some f => { suite with cachedFile := some f }
      | none =>
        match findAncestorFile ancestors with
        | some f => { suite with cachedFile := some f }
        | none => suite
  (node, suite')

/-! ## The finalize pass of `getXml`

```js
for (const suite of testsuites) {
  const _suiteAttr = suite.testsuite[0]._attr;
  const _cases = suite.testsuite.slice(1);
  const suiteTime = _suiteAttr.time;
  _suiteAttr.time = (suiteTime / 1000 || 0).toFixed(3);
  _suiteAttr.timestamp = new LocalDate(_suiteAttr.timestamp).toISOString().slice(0, -5);
  _suiteAttr.failures = 0;
  _suiteAttr.skipped = 0;
  for (const testcase of _cases) {
    const lastNode = testcase.testcase.at(-1);
    _suiteAttr.skipped += Number("skipped" in lastNode);
    _suiteAttr.failures += Number("failure" in lastNode);
    if (typeof testcase.testcase[0]._attr.time === "number") {
      testcase.testcase[0]._attr.time = testcase.testcase[0]._attr.time.toFixed(3);
    }
  }
  if (!_suiteAttr.skipped) { delete _suiteAttr.skipped; }
  totalTests += _suiteAttr.tests;
}
```
-/

/-- JS `"skipped" in testcase.testcase.at(-1)`: when the testcase has no
children, `at(-1)` is the `{_attr}` element, which has no such key. -/
def lastNodeHasSkipped (tc : TestcaseRec) : Bool :=
  match tc.children.getLast? with
  | some .skippedChild => true
  | _ => false

/-- JS `"failure" in testcase.testcase.at(-1)`. -/
def lastNodeHasFailure (tc : TestcaseRec) : Bool :=
  match tc.children.getLast? with
  | some (.failureChild _ _ _) => true
  | _ => false

/-- JS `suiteTime / 1000 || 0`: number divides directly; a string coerces via
`Number` with `NaN` (and `0` itself) collapsing to `0`; `undefined`
divides to `NaN`, hence `0`. -/
def jsDiv1000OrZero : JsTime → ℚ
  | .num q => q / 1000
  | .str s =>
    match jsStringToNumber s with
    | some q => q / 1000
    | none => 0
  | .undefinedTime => 0

/-- The guarded testcase-time formatting: `toFixed(3)` runs only when the
value is still a number. -/
def finalizeCaseTime : JsTime → JsTime
  | .num q => .str (fixed3 q)
  | t => t

/-- JS `v.toFixed(3)` as the JS runtime sees it: a method found only on
numbers — on a string or `undefined` the call would throw. Used to state
that the `typeof` guard prevents any throw. -/
def toFixed3Except : JsTime → Except String String
  | .num q => .ok (fixed3 q)
  | .str _ => .error "TypeError: toFixed is not a function"
  | .undefinedTime => .error "TypeError: toFixed is not a function"

/-- The testcase-time step with the guard and the raw method call spelled
out (`if (typeof t === "number") { t = t.toFixed(3) }`). -/
def finalizeCaseTimeE (t : JsTime) : Except String JsTime :=
  match t with
  | .num q => (toFixed3Except (.num q)).map .str
  | t => .ok t

/-- The testcase as the inner finalize loop leaves it. -/
def finalizeCase (tc : TestcaseRec) : TestcaseRec :=
  { tc with attr := { tc.attr with time := finalizeCaseTime tc.attr.time } }

/-- One iteration of the finalize pass over a single suite: reformat the
suite time, reset and recount `failures`/`skipped` from the testcase
tail, format still-numeric testcase times, drop a zero `skipped`. -/
def finalizeSuite (s : SuiteRec) : SuiteRec :=
  let acc := s.cases.foldl
    (fun (acc : Int × Int × List TestcaseRec) tc =>
      (acc.1 + (if lastNodeHasSkipped tc then 1 else 0),
       acc.2.1 + (if lastNodeHasFailure tc then 1 else 0),
       acc.2.2 ++ [finalizeCase tc]))
    (0, 0, [])
  { attr := { s.attr with
      time := .str (fixed3 (jsDiv1000OrZero s.attr.time)),
      failures := some acc.2.1,
      skipped := if acc.1 == 0 then none else some acc.1 }
    cases := acc.2.2 }

/-- The whole finalize loop of `getXml`: every suite is rewritten in place
and `totalTests` accumulates the (untouched) `tests` attributes. -/
def getXmlPass (suites : List SuiteRec) : List SuiteRec × Int :=
  suites.foldl
    (fun (acc : List SuiteRec × Int) s =>
      let s' := finalizeSuite s
      (acc.1 ++ [s'], acc.2 + s'.attr.tests))
    ([], 0)

/-! ## Suite validity and `_onSuiteBegin`

```js
function isInvalidSuite(suite) {
  return (!suite.root && suite.title === "") ||
         (suite.tests.length === 0 && suite.suites.length === 0);
}
this._onSuiteBegin = function (suite) {
  if (!isInvalidSuite(suite)) { testsuites.push(this.getTestsuiteData(suite)); }
};
```

The runner delivers one `suite` event per suite of the loaded tree in
pre-order (Mocha runs every nested suite, invalid or not). A suite tree is
modeled as a nested inductive; each event carries the view of the suite
that `isInvalidSuite` inspects. -/

structure SuiteEvent where
  title : String
  isRoot : Bool
  nTests : Nat
  nChildren : Nat
deriving DecidableEq, Repr

inductive MSuite where
  | node (title : String) (nTests : Nat) (children : List MSuite)

/-- The event-payload view of a suite. -/
def suiteView (isRoot : Bool) : MSuite → SuiteEvent
  | .node t n cs => ⟨t, isRoot, n, cs.length⟩

mutual

/-- The `suite` events the runner emits for a tree, in pre-order. -/
def preorder (isRoot : Bool) : MSuite → List SuiteEvent
  | .node t n cs => suiteView isRoot (.node t n cs) :: preorderList cs

def preorderList : List MSuite → List SuiteEvent
  | [] => []
  | c :: cs => preorder false c ++ preorderList cs

end

mutual

/-- Pre-order events paired with the event views of their ancestors
(nearest first). -/
def eventsWithAnc (anc : List SuiteEvent) (isRoot : Bool) :
    MSuite → List (SuiteEvent × List SuiteEvent)
  | .node t n cs =>
    (suiteView isRoot (.node t n cs), anc)
      :: eventsWithAncList (suiteView isRoot (.node t n cs) :: anc) cs

def eventsWithAncList (anc : List SuiteEvent) :
    List MSuite → List (SuiteEvent × List SuiteEvent)
  | [] => []
  | c :: cs => eventsWithAnc anc false c ++ eventsWithAncList anc cs

end

/-- Source `isInvalidSuite`. -/
def isInvalidSuite (e : SuiteEvent) : Bool :=
  (!e.isRoot && e.title == "") || (e.nTests == 0 && e.nChildren == 0)

/-- The `_onSuiteBegin` handler folded over an event stream. The state
records the suites for which a `getTestsuiteData` node is pushed onto the
top-level `testsuites` list, in push order. -/
def processSuiteEvents (evs : List SuiteEvent) : List SuiteEvent :=
  evs.foldl (fun acc e => if isInvalidSuite e then acc else acc ++ [e]) []

/-! ## Configuration resolution of `filePathTransforms`

`configureDefaults` guards the transform branch:

```js
if (config.filePathTransforms) {
  if (typeof filePathTransforms !== 'string') { throw new TypeError("filePathTransforms must be a string value. ..."); }
  // pipe→comma, bareword-key quoting, single→double quote normalization ...
  transforms = parseFilePathTransforms(filePathTransforms);
}
config.filePathTransforms = transforms; // transforms starts as []
```

The guard is modeled over raw JS values; a falsy configuration value skips
the whole branch and leaves the empty rule list. The regex normalization
and `JSON.parse` are modeled as given: `parseFilePathTransforms` below
takes the parsed JSON value and performs the source's validation. -/

/-- The `TypeError` message for a truthy non-string configuration value. -/
def nonStringTransformsError : String :=
  "filePathTransforms must be a string value. Use pipe-delimited format like: \"[\x7bsearch: '^build/'| replace: 'src/'\x7d]\""

/-- The `TypeError` message for a single-object rule missing a field. -/
def singleRuleError : String :=
  "filePathTransforms must have both 'search' and 'replace' properties."

/-- The `TypeError` message for a parsed value of unsupported shape. -/
def unsupportedFormatError : String :=
  "filePathTransforms has unsupported format"

/-- The type check of `configureDefaults`, reached only for truthy values;
`ok none` means the branch was skipped (no transforms configured), `ok
(some s)` hands the string on to normalization and parsing. -/
def configureTransformsGuard (v : JVal) : Except String (Option String) :=
  if jsTruthy v = false then .ok none
  else
    match v with
    | .jstr s => .ok (some s)
    | _ => .error nonStringTransformsError

/-- Truthiness of JS `v?.key` with prototype-chain lookup, for the keys
the validation reads (`search` and `replace`): own properties come first;
a string primitive that lacks them as own properties finds the truthy
`String.prototype.search` / `String.prototype.replace` methods; the other
prototypes reachable here (`Object`, `Array`, `Number`, `Boolean`) carry
neither name, and `null`/`undefined` short-circuit to `undefined`. -/
def optChainTruthy (v : JVal) (key : String) : Bool :=
  match v with
  | .jstr _ => key == "search" || key == "replace"
  | _ => jsTruthy (jsOptChain v key)

/-- JS `!transform?.search || !transform?.replace`: the rule lacks a truthy
`search` or `replace` member — member access resolving through the
prototype chain, so a bare string entry passes (its `search`/`replace`
are the truthy `String.prototype` methods), while an empty or absent
field on an object fails. -/
def ruleMissingFields (t : JVal) : Bool :=
  !optChainTruthy t "search" || !optChainTruthy t "replace"

/-- The indexed error message for a bad array entry. -/
def arrayRuleError (i : Nat) : String :=
  s!"filePathTransforms[{i}] must have both 'search' and 'replace' properties."

/-- The `for (const [index, transform] of parsed.entries())` validation
loop: throws at the first offending index. -/
def checkRulesFrom (i : Nat) : List JVal → Except String Unit
  | [] => .ok ()
  | t :: ts =>
    if ruleMissingFields t then .error (arrayRuleError i)
    else checkRulesFrom (i + 1) ts

/-- Source `parseFilePathTransforms` after `JSON.parse`: arrays are validated
entry-wise, single objects get the generic message, anything else is
unsupported. -/
def parseFilePathTransforms (parsed : JVal) : Except String (List JVal) :=
  match parsed with
  | .jarr items =>
    match checkRulesFrom 0 items with
    | .error e => .error e
    | .ok () => .ok items
  | .jobj fields =>
    if ruleMissingFields (.jobj fields) then .error singleRuleError
    else .ok [.jobj fields]
  | _ => .error unsupportedFormatError

/-! ## The XML builder (`src/lib/xml-builder.js`)

The repository holds two copies of this module: one reading its literals
from `src/lib/xml-constants.js` (`SPECIAL_PROPS`, `XML_ENTITIES`,
`DEFAULTS`, `FORMAT`) and one with the literals inlined. Their code is
line-for-line identical up to where each literal comes from, so the
embedding defines the shared body once, parameterized over a record of
those literals, and instantiates it with each copy's constants. -/

structure XmlConsts where
  attrKey : String
  cdataKey : String
  entities : List (String × String)
  defaultIndent : String
  version : String
  encoding : String
  compactMax : Nat
  initialDepth : Nat
deriving DecidableEq, Repr

structure XmlOptions where
  declaration : Bool := false
  indentOpt : Option String := none
deriving DecidableEq, Repr

/-- JS `options.indent || <default>`: an absent or empty (falsy) indent falls
back to the default. -/
def getIndent (c : XmlConsts) (o : XmlOptions) : String :=
  match o.indentOpt with
  | some s => if s.isEmpty then c.defaultIndent else s
  | none => c.defaultIndent

/-- JS `indent.repeat(depth)`. -/
def strRepeat (s : String) (n : Nat) : String :=
  String.join (List.replicate n s)

/-- Global literal replacement on character lists, structured on a fuel
argument for kernel evaluation. Called with fuel `s.length`, which
suffices because every step consumes at least one input character when the
pattern is non-empty (all patterns used here are single characters). -/
def replaceAllFuel (pat rep : List Char) : Nat → List Char → List Char
  | _, [] => []
  | 0, s => s
  | fuel + 1, c :: cs =>
    if !pat.isEmpty && pat.isPrefixOf (c :: cs) then
      rep ++ replaceAllFuel pat rep fuel ((c :: cs).drop pat.length)
    else c :: replaceAllFuel pat rep fuel cs

/-- JS `str.replaceAll(pat, rep)` — equally, `str.replace(/pat/g, rep)` —
for a non-empty, metacharacter-free pattern and a `$`-free replacement. -/
def jsReplaceAll (pat rep s : String) : String :=
  String.mk (replaceAllFuel pat.data rep.data s.data.length s.data)

mutual

/-- JS `String(v)` / template-literal interpolation. -/
def jsToString : JVal → String
  | .jstr s => s
  | .jnum n => toString n
  | .jbool b => if b then "true" else "false"
  | .jnull => "null"
  | .jundefined => "undefined"
  | .jobj _ => "[object Object]"
  | .jarr items => jsToStringArr items

/-- JS `Array.prototype.toString`: elements joined with `","`, with `null`
and `undefined` elements contributing the empty string. -/
def jsToStringArr : List JVal → String
  | [] => ""
  | [v] => jsToStringElem v
  | v :: vs => jsToStringElem v ++ "," ++ jsToStringArr vs

def jsToStringElem : JVal → String
  | .jnull => ""
  | .jundefined => ""
  | v => jsToString v

end

/-- JS `Object.entries(v)`: an object's own fields in insertion order; an
array's indexed entries; a string's indexed characters; nothing for other
primitives. -/
def jsEntries : JVal → List (String × JVal)
  | .jobj fields => fields
  | .jarr items => items.enum.map (fun p => (toString p.1, p.2))
  | .jstr s => s.data.enum.map (fun p => (toString p.1, .jstr (String.mk [p.2])))
  | _ => []

/-- JS `Object.keys(v)`. -/
def jsKeys (v : JVal) : List String :=
  (jsEntries v).map Prod.fst

/-- Source `escapeXml`: `null`/`undefined` escape to the empty string; any other
value is stringified and each configured entity pair is applied with a
global replacement, in order. -/
def xmlEscape (c : XmlConsts) (v : JVal) : String :=
  match v with
  | .jnull => ""
  | .jundefined => ""
  | v => c.entities.foldl (fun acc e => jsReplaceAll e.1 e.2 acc) (jsToString v)

/-- JS `Object.entries(attrs).map(([k, v]) => \` ${k}="${escapeXml(v)}"\`).join('')`. -/
def renderAttrPairs (c : XmlConsts) (pairs : List (String × JVal)) : String :=
  String.join (pairs.map (fun p => " " ++ p.1 ++ "=\"" ++ xmlEscape c p.2 ++ "\""))

/-- The attribute string of `buildXmlElement`: rendered only when
`content._attr` is truthy. -/
def attrString (c : XmlConsts) (content : JVal) : String :=
  let a := jsOptChain content c.attrKey
  if jsTruthy a then renderAttrPairs c (jsEntries a) else ""

/-- Is the value `undefined`? (`content._cdata !== undefined` uses this.) -/
def isUndefined : JVal → Bool
  | .jundefined => true
  | _ => false

/-- The `.some` scan of the wrapper-array test:
`value.slice(1).some((item) => typeof item === 'object' && !item._attr)`.
For a `null` tail item the `typeof` guard passes (`typeof null ===
'object'`) and the plain access `item._attr` then throws a `TypeError`,
which the scan propagates; for every other non-object the guard
short-circuits, and objects and arrays are read without incident. -/
def someObjectWithoutAttr (c : XmlConsts) : List JVal → Except String Bool
  | [] => .ok false
  | .jnull :: _ =>
    .error "TypeError: Cannot read properties of null (reading '_attr')"
  | item :: items =>
    if jsTypeofIsObject item && !jsTruthy (jsOptChain item c.attrKey) then .ok true
    else someObjectWithoutAttr c items

/-- The wrapper-array test of `buildXml`:

```js
const hasWrapperPattern = value.length > 0 &&
  value[0]?._attr &&
  value.slice(1).some((item) => typeof item === 'object' && !item._attr);
```

`&&` short-circuits: an empty array or a falsy `value[0]?._attr` settles
the test as false before the `.some` scan (and its possible `TypeError`)
runs. -/
def wrapperCheck (c : XmlConsts) : List JVal → Except String Bool
  | [] => .ok false
  | first :: rest =>
    if !jsTruthy (jsOptChain first c.attrKey) then .ok false
    else someObjectWithoutAttr c rest

mutual

/-- Source `buildXml(obj, options, depth)`: arrays concatenate their items at the
same depth; non-objects (and `null`) escape to text; objects render field
by field. A thrown `TypeError` from the wrapper test propagates as the
`error` case. -/
def buildXml (c : XmlConsts) (o : XmlOptions) (depth : Nat) :
    JVal → Except String String
  | .jarr items => buildXmlList c o depth items
  | .jobj fields => buildFields c o depth fields
  | v => .ok (xmlEscape c v)
termination_by v => (sizeOf v, 0)

def buildXmlList (c : XmlConsts) (o : XmlOptions) (depth : Nat) :
    List JVal → Except String String
  | [] => .ok ""
  | v :: vs =>
    match buildXml c o depth v with
    | .error e => .error e
    | .ok h =>
      match buildXmlList c o depth vs with
      | .error e => .error e
      | .ok t => .ok (h ++ t)
termination_by l => (sizeOf l, 0)

/-- The `for (const [key, value] of Object.entries(obj))` loop of
`buildXml`: the `_attr` key is skipped, array values go through the
wrapper-vs-siblings dispatch, other values render as single elements. -/
def buildFields (c : XmlConsts) (o : XmlOptions) (depth : Nat) :
    List (String × JVal) → Except String String
  | [] => .ok ""
  | (key, value) :: rest =>
    if key = c.attrKey then buildFields c o depth rest
    else
      match
        (match value with
         | .jarr items => buildArrayValue c o depth key items
         | v => buildXmlElement c o depth key v) with
      | .error e => .error e
      | .ok piece =>
        match buildFields c o depth rest with
        | .error e => .error e
        | .ok restXml => .ok (piece ++ restXml)
termination_by f => (sizeOf f, 0)

/-- An array value under a key: the wrapper test runs first (its
`TypeError` propagating); on success the array renders either as one
wrapper element taking its attributes from item 0 and its children from
items 1.. one level deeper, or as a run of sibling elements sharing the
key as tag name. -/
def buildArrayValue (c : XmlConsts) (o : XmlOptions) (depth : Nat)
    (key : String) (items : List JVal) : Except String String :=
  match items with
  | [] => .ok ""
  | first :: rest =>
    match wrapperCheck c (first :: rest) with
    | .error e => .error e
    | .ok true =>
      let indentStr := strRepeat (getIndent c o) depth
      let attributes := renderAttrPairs c (jsEntries (jsOptChain first c.attrKey))
      match buildXmlList c o (depth + 1) rest with
      | .error e => .error e
      | .ok childrenXml =>
        .ok (indentStr ++ "<" ++ key ++ attributes ++ ">\n"
          ++ childrenXml ++ indentStr ++ "</" ++ key ++ ">\n")
    | .ok false => siblingList c o depth key (first :: rest)
termination_by (sizeOf items, 2)

def siblingList (c : XmlConsts) (o : XmlOptions) (depth : Nat) (key : String) :
    List JVal → Except String String
  | [] => .ok ""
  | v :: vs =>
    match buildXmlElement c o depth key v with
    | .error e => .error e
    | .ok h =>
      match siblingList c o depth key vs with
      | .error e => .error e
      | .ok t => .ok (h ++ t)
termination_by l => (sizeOf l, 1)

/-- Source `buildXmlElement(tagName, content, options, depth)`. -/
def buildXmlElement (c : XmlConsts) (o : XmlOptions) (depth : Nat)
    (tag : String) (content : JVal) : Except String String :=
  let indentStr := strRepeat (getIndent c o) depth
  match content with
  | .jnull => .ok (indentStr ++ "<" ++ tag ++ "/>\n")
  | .jundefined => .ok (indentStr ++ "<" ++ tag ++ "/>\n")
  | .jstr s =>
    .ok (indentStr ++ "<" ++ tag ++ ">" ++ xmlEscape c (.jstr s) ++ "</" ++ tag ++ ">\n")
  | .jnum n =>
    .ok (indentStr ++ "<" ++ tag ++ ">" ++ xmlEscape c (.jnum n) ++ "</" ++ tag ++ ">\n")
  | .jbool b =>
    .ok (indentStr ++ "<" ++ tag ++ ">" ++ xmlEscape c (.jbool b) ++ "</" ++ tag ++ ">\n")
  | content =>
    let attributes := attrString c content
    let cdataVal := jsOptChain content c.cdataKey
    if !isUndefined cdataVal then
      .ok (indentStr ++ "<" ++ tag ++ attributes ++ "><![CDATA[" ++ jsToString cdataVal
        ++ "]]></" ++ tag ++ ">\n")
    else if ((jsKeys content).filter (· ≠ c.attrKey)).isEmpty then
      .ok (indentStr ++ "<" ++ tag ++ attributes ++ ">\n" ++ indentStr ++ "</" ++ tag ++ ">\n")
    else
      match buildXml c o (depth + 1) content with
      | .error e => .error e
      | .ok innerXml =>
        let trimmedInner := String.mk (trimChars innerXml.data)
        if !trimmedInner.data.contains '\n' && trimmedInner.data.length < c.compactMax then
          .ok (indentStr ++ "<" ++ tag ++ attributes ++ ">" ++ trimmedInner ++ "</" ++ tag ++ ">\n")
        else
          .ok (indentStr ++ "<" ++ tag ++ attributes ++ ">\n" ++ innerXml
            ++ indentStr ++ "</" ++ tag ++ ">\n")
termination_by (sizeOf content, 3)

end

/-- Source `toXml(obj, options)`: optional declaration line, then the tree at the
initial depth. -/
def toXml (c : XmlConsts) (o : XmlOptions) (v : JVal) : Except String String :=
  match buildXml c o c.initialDepth v with
  | .error e => .error e
  | .ok body =>
    .ok ((if o.declaration then
      "<?xml version=\"" ++ c.version ++ "\" encoding=\"" ++ c.encoding ++ "\"?>\n"
    else "") ++ body)

/-- The literals of the constant-driven copy, transcribed from
`src/lib/xml-constants.js` (`SPECIAL_PROPS`, `XML_ENTITIES` in insertion
order, `DEFAULTS`, `FORMAT`). -/
def constantsCopyConsts : XmlConsts :=
  { attrKey := "_attr"
    cdataKey := "_cdata"
    entities := [("&", "&amp;"), ("<", "&lt;"), (">", "&gt;"),
                 ("\"", "&quot;"), ("'", "&apos;")]
    defaultIndent := "  "
    version := "1.0"
    encoding := "UTF-8"
    compactMax := 80
    initialDepth := 0 }

/-- The literals of the inline copy, transcribed from its source: `'_attr'`
and `'_cdata'` written out, the five chained entity replacements in their
chain order, `'  '`, the literal declaration line and the limits `80`/`0`. -/
def inlineCopyConsts : XmlConsts :=
  { attrKey := "_attr"
    cdataKey := "_cdata"
    entities := [("&", "&amp;"), ("<", "&lt;"), (">", "&gt;"),
                 ("\"", "&quot;"), ("'", "&apos;")]
    defaultIndent := "  "
    version := "1.0"
    encoding := "UTF-8"
    compactMax := 80
    initialDepth := 0 }

/-- Source `escapeXml` of the inline copy, transcribed as written there: five
chained global regex replacements (a global single-character regex
replacement is a global literal replacement). -/
def escapeXmlInline (v : JVal) : String :=
  match v with
  | .jnull => ""
  | .jundefined => ""
  | v =>
    jsReplaceAll "'" "&apos;"
      (jsReplaceAll "\"" "&quot;"
        (jsReplaceAll ">" "&gt;"
          (jsReplaceAll "<" "&lt;"
            (jsReplaceAll "&" "&amp;" (jsToString v)))))


/-! ## Auxiliary predicates and concrete witness data -/

/-- Is the value a JS string? (`typeof v === "string"`.) -/
def isJsString : JVal → Bool
  | .jstr _ => true
  | _ => false

/-- Is the child a `failure` entry? -/
def isFailureChild : TCChild → Bool
  | .failureChild _ _ _ => true
  | _ => false

/-- The first array index whose rule lacks a truthy `search` or `replace`
field (the index the validation loop's error names, when any). -/
def ruleFirstBadIndex (items : List JVal) : Option Nat :=
  items.findIdx? ruleMissingFields

/-- The wrapper condition exactly as the claim words it: item 0 is a
record containing only attributes (no CDATA and no further children), and
at least one later item is a plain object without attributes. Stated from
the spec's words, to be compared against the source's `wrapperCheck`. -/
def isAttrsOnlyRecord : JVal → Bool
  | .jobj fields => fields.map Prod.fst == ["_attr"]
  | _ => false

def specWrapperCond (items : List JVal) : Bool :=
  match items with
  | [] => false
  | first :: rest =>
    isAttrsOnlyRecord first
      && rest.any (fun item =>
           match item with
           | .jobj fields => fields.all (fun p => p.1 ≠ "_attr")
           | _ => false)

/-- Array input distinguishing the claim's wrapper condition from the
source's: item 0 carries `_attr` *and* `_cdata`, a later item is a plain
object. -/
def c2Items : List JVal :=
  [ .jobj [("_attr", .jobj [("a", .jstr "1")]), ("_cdata", .jstr "x")],
    .jobj [("child", .jstr "y")] ]

def c2Input : JVal := .jobj [("k", .jarr c2Items)]

/-- A suite object with an own file and no cache entry yet. -/
def c4Suite : RunnerSuite :=
  { title := "My Suite", root := false, testsCount := 1, suitesCount := 0,
    file := some "test/a.spec.js", cachedFile := none }

/-- A testcase whose `failure` entry is not the last child (a `system-out`
follows it). -/
def c1Case : TestcaseRec :=
  { attr := { name := "t", time := .num 0, classname := "S" },
    children := [.failureChild "boom" "Error" "boom stack", .sysOut "log line"] }

def c1Suite : SuiteRec :=
  { attr := { name := "S", timestamp := 0, tests := 1, time := .num 0 },
    cases := [c1Case] }

/-- A finished suite with a 1 ms duration, for the double-finalize run. -/
def c5Suite : SuiteRec :=
  { attr := { name := "S", timestamp := 0, tests := 1, time := .num 1 },
    cases := [] }

/-- A run whose root holds one untitled suite that in turn holds a titled
suite with a test: the middle suite is invalid, its child is valid. -/
def c8Tree : MSuite := .node "" 0 [.node "" 0 [.node "B" 1 []]]

def c8RootEvent : SuiteEvent := ⟨"", true, 0, 1⟩

def c8MiddleEvent : SuiteEvent := ⟨"", false, 0, 1⟩

def c8LeafEvent : SuiteEvent := ⟨"B", false, 1, 0⟩

/-! # Theorems -/

/-- Evaluation lemma for `fixed3`, factoring out the floor computation. -/
theorem fixed3_eval (q : ℚ) (m : ℤ) (hm : ⌊q * 1000 + 1 / 2⌋ = m) :
    fixed3 q = toString (m / 1000) ++ "." ++ pad3 (m % 1000).toNat := by
  simp only [fixed3]
  rw [hm]

/-- C6: applying the configured file-path transforms is the left-to-right
sequential fold of the rule list (each rule's output feeds the next rule's
input); a rule that failed to compile or threw acts as the identity and is
skipped without aborting the remaining rules; on the rules
`[{search:"build", replace:"src"}, {search:"src/", replace:"source/"}]`
the path `"build/test.js"` becomes `"source/test.js"`. -/
theorem applyFilePathTransforms_sequential :
    (∀ (r : PathRule) (rs : List PathRule) (p : String),
      applyFilePathTransforms (r :: rs) p = applyFilePathTransforms rs (applyRule p r))
    ∧ (∀ (l r : List PathRule) (p : String),
      applyFilePathTransforms (l ++ PathRule.broken :: r) p
        = applyFilePathTransforms (l ++ r) p)
    ∧ applyFilePathTransforms
        [PathRule.ok "build" "src", PathRule.ok "src/" "source/"]
        "build/test.js" = "source/test.js" := by
  refine ⟨fun r rs p => rfl, ?_, by decide⟩
  intro l r p
  induction l generalizing p with
  | nil => rfl
  | cons a l ih => exact ih (applyRule p a)

/-- C3 counterexample: at a concrete write failure (`mkdirSync` succeeded,
`writeFileSync` threw), `writeXmlToDisk` returns normally with `ok` —
it does not terminate exceptionally, contradicting the claim that every
write failure is raised/propagated to the caller. -/
theorem writeXmlToDisk_swallows_write_error :
    writeXmlToDisk "test-results.xml" (Except.ok ())
        (Except.error "EACCES: permission denied") = Except.ok ()
    ∧ (writeXmlToDisk "test-results.xml" (Except.ok ())
        (Except.error "EACCES: permission denied")).isOk = true := by
  exact ⟨rfl, rfl⟩

/-- C3 (amended): a failure of the report-file write itself is caught
inside `writeXmlToDisk` and only logged at debug level — the method
returns normally for every such failure; only a failure of the directory
creation (which sits outside the try/catch) propagates, and an empty
target path skips writing altogether. -/
theorem writeXmlToDisk_amended :
    (∀ (fp : String) (e : String),
      writeXmlToDisk fp (Except.ok ()) (Except.error e) = Except.ok ())
    ∧ (∀ (e : String) (w : Except String Unit),
      writeXmlToDisk "test-results.xml" (Except.error e) w = Except.error e)
    ∧ (∀ (mk w : Except String Unit), writeXmlToDisk "" mk w = Except.ok ()) := by
  refine ⟨fun fp e => ?_, fun e w => rfl, fun mk w => rfl⟩
  simp [writeXmlToDisk]

/-- C4 counterexample: processing a suite-start event for a concrete suite
with an own `file` and no cache entry returns a suite object that differs
from the caller's — `getTestsuiteData` injects the `_cachedFile` field
onto the runner's suite object, contradicting the claim that the cache
lives in a side-table and the caller-owned suite is never mutated. -/
theorem getTestsuiteData_mutates_suite :
    (getTestsuiteData 0 c4Suite []).2 ≠ c4Suite
    ∧ (getTestsuiteData 0 c4Suite []).2.cachedFile = some "test/a.spec.js"
    ∧ c4Suite.cachedFile = none := by
  refine ⟨?_, rfl, rfl⟩
  decide

/-- C4 (amended): on every suite-start event the core resolves the suite's
effective source file and caches it by writing the `_cachedFile` field
directly onto the caller-owned suite object: the suite's own file wins,
else the nearest ancestor's `file` or `_cachedFile`; no other field of the
suite is touched, and re-processing an already-cached suite (same
ancestors) changes nothing. -/
theorem getTestsuiteData_amended :
    (∀ (now : Int) (s : RunnerSuite) (anc : List RunnerSuite),
      (getTestsuiteData now s anc).2.title = s.title
      ∧ (getTestsuiteData now s anc).2.root = s.root
      ∧ (getTestsuiteData now s anc).2.testsCount = s.testsCount
      ∧ (getTestsuiteData now s anc).2.suitesCount = s.suitesCount
      ∧ (getTestsuiteData now s anc).2.file = s.file)
    ∧ (∀ (now now2 : Int) (s : RunnerSuite) (anc : List RunnerSuite),
      (getTestsuiteData now2 (getTestsuiteData now s anc).2 anc).2
        = (getTestsuiteData now s anc).2)
    ∧ (∀ (now : Int) (t : String) (r : Bool) (tc sc : Nat) (f : String)
        (anc : List RunnerSuite),
      (getTestsuiteData now ⟨t, r, tc, sc, some f, none⟩ anc).2.cachedFile = some f)
    ∧ (∀ (now : Int) (t : String) (r : Bool) (tc sc : Nat)
        (anc : List RunnerSuite),
      (getTestsuiteData now ⟨t, r, tc, sc, none, none⟩ anc).2.cachedFile
        = findAncestorFile anc) := by
  refine ⟨?_, ?_, ?_, ?_⟩
  · rintro now ⟨t, r, tc, sc, f, cf⟩ anc
    cases cf <;> cases f <;> cases h : findAncestorFile anc <;>
      simp [getTestsuiteData, h]
  · rintro now now2 ⟨t, r, tc, sc, f, cf⟩ anc
    cases cf <;> cases f <;> cases h : findAncestorFile anc <;>
      simp [getTestsuiteData, h]
  · intro now t r tc sc f anc
    simp [getTestsuiteData]
  · intro now t r tc sc anc
    cases h : findAncestorFile anc <;> simp [getTestsuiteData, h]

/-- The validation loop agrees with the first-bad-index search, for any
start index. -/
theorem checkRulesFrom_eq_findIdx (items : List JVal) :
    ∀ i : Nat, checkRulesFrom i items
      = (match List.findIdx? ruleMissingFields items i with
         | some j => Except.error (arrayRuleError j)
         | none => Except.ok ()) := by
  induction items with
  | nil => intro i; rfl
  | cons t ts ih =>
    intro i
    by_cases h : ruleMissingFields t
    · simp [checkRulesFrom, List.findIdx?, h]
    · simp [checkRulesFrom, List.findIdx?, h, ih (i + 1)]

/-- C7 counterexample: `null` (the documented default) and `false` are
non-string configuration values, yet configuration resolution accepts
them without an error — they are falsy, so the whole transform branch is
skipped and the empty rule list is kept; the claim that every non-string
value is rejected before normalization fails at these inputs. -/
theorem configureDefaults_accepts_falsy_nonstring :
    isJsString JVal.jnull = false
    ∧ configureTransformsGuard JVal.jnull = Except.ok none
    ∧ isJsString (JVal.jbool false) = false
    ∧ configureTransformsGuard (JVal.jbool false) = Except.ok none := by
  exact ⟨rfl, rfl, rfl, rfl⟩

/-- C7 (amended): a *truthy* non-string value is rejected (with the
descriptive `TypeError`) before any normalization, while a falsy value
disables transforms without error; after parsing, an array input with an
offending rule — one lacking a truthy `search` or `replace` member under
JS member access, which resolves through the prototype chain, so a bare
string entry is accepted via the `String.prototype` methods — is rejected
with the error naming the first offending index, a clean array is
returned as-is, and a single-object input lacking a truthy field is
rejected with the generic message, else returned as a one-rule list. -/
theorem parseFilePathTransforms_validation :
    (∀ v : JVal, jsTruthy v = true → isJsString v = false →
      configureTransformsGuard v = Except.error nonStringTransformsError)
    ∧ (∀ v : JVal, jsTruthy v = false →
      configureTransformsGuard v = Except.ok none)
    ∧ (∀ (items : List JVal) (i : Nat), ruleFirstBadIndex items = some i →
      parseFilePathTransforms (.jarr items) = Except.error (arrayRuleError i))
    ∧ (∀ items : List JVal, ruleFirstBadIndex items = none →
      parseFilePathTransforms (.jarr items) = Except.ok items)
    ∧ (∀ fields : List (String × JVal), ruleMissingFields (.jobj fields) = true →
      parseFilePathTransforms (.jobj fields) = Except.error singleRuleError)
    ∧ (∀ fields : List (String × JVal), ruleMissingFields (.jobj fields) = false →
      parseFilePathTransforms (.jobj fields) = Except.ok [.jobj fields]) := by
  refine ⟨?_, ?_, ?_, ?_, ?_, ?_⟩
  · intro v htruthy hstr
    cases v <;> simp_all [configureTransformsGuard, isJsString]
  · intro v hfalsy
    simp [configureTransformsGuard, hfalsy]
  · intro items i h
    simp only [parseFilePathTransforms, checkRulesFrom_eq_findIdx items 0]
    rw [show List.findIdx? ruleMissingFields items 0 = some i from h]
  · intro items h
    simp only [parseFilePathTransforms, checkRulesFrom_eq_findIdx items 0]
    rw [show List.findIdx? ruleMissingFields items 0 = none from h]
  · intro fields h
    simp [parseFilePathTransforms, h]
  · intro fields h
    simp [parseFilePathTransforms, h]

/-- C7 witness: the theorem applied at concrete configuration values — a
truthy non-string (`12`), a bad second array entry, a clean array, the
two single-object cases, and a bare-string array entry that the
validation accepts through the `String.prototype` methods. -/
theorem parseFilePathTransforms_validation_witness :
    configureTransformsGuard (.jnum 12) = Except.error nonStringTransformsError
    ∧ parseFilePathTransforms
        (.jarr [.jobj [("search", .jstr "a"), ("replace", .jstr "b")],
                .jobj [("search", .jstr "c")]])
        = Except.error (arrayRuleError 1)
    ∧ parseFilePathTransforms
        (.jarr [.jobj [("search", .jstr "a"), ("replace", .jstr "b")]])
        = Except.ok [.jobj [("search", .jstr "a"), ("replace", .jstr "b")]]
    ∧ parseFilePathTransforms (.jobj [("search", .jstr "a")])
        = Except.error singleRuleError
    ∧ parseFilePathTransforms (.jobj [("search", .jstr "a"), ("replace", .jstr "b")])
        = Except.ok [.jobj [("search", .jstr "a"), ("replace", .jstr "b")]]
    ∧ parseFilePathTransforms (.jarr [.jstr "abc"]) = Except.ok [.jstr "abc"] := by
  refine ⟨parseFilePathTransforms_validation.1 (.jnum 12) rfl rfl,
    parseFilePathTransforms_validation.2.2.1 _ 1 ?_,
    parseFilePathTransforms_validation.2.2.2.1 _ ?_,
    parseFilePathTransforms_validation.2.2.2.2.1 _ ?_,
    parseFilePathTransforms_validation.2.2.2.2.2 _ ?_,
    parseFilePathTransforms_validation.2.2.2.1 [.jstr "abc"] (by decide)⟩
  · simp only [ruleFirstBadIndex, List.findIdx?, ruleMissingFields, jsOptChain,
      jsLookup, jsTruthy, List.lookup, Option.getD]
    decide
  · simp only [ruleFirstBadIndex, List.findIdx?, ruleMissingFields, jsOptChain,
      jsLookup, jsTruthy, List.lookup, Option.getD]
    decide
  · simp only [ruleMissingFields, jsOptChain, jsLookup, jsTruthy, List.lookup, Option.getD]
    decide
  · simp only [ruleMissingFields, jsOptChain, jsLookup, jsTruthy, List.lookup, Option.getD]
    decide

/-- C8 counterexample: in a run whose root holds an untitled suite that in
turn holds the titled suite "B" with one test, the untitled middle suite
is invalid, "B" is its descendant, and "B" does get pushed as a suite
node — descendants of invalid suites are not excluded, contradicting the
claim. -/
theorem invalid_suite_descendant_appears :
    isInvalidSuite c8MiddleEvent = true
    ∧ (c8LeafEvent, [c8MiddleEvent, c8RootEvent]) ∈ eventsWithAnc [] true c8Tree
    ∧ c8LeafEvent ∈ processSuiteEvents (preorder true c8Tree) := by
  refine ⟨rfl, ?_, ?_⟩
  · simp [eventsWithAnc, eventsWithAncList, c8Tree, suiteView,
      c8RootEvent, c8MiddleEvent, c8LeafEvent]
  · simp [preorder, preorderList, c8Tree, suiteView, processSuiteEvents,
      isInvalidSuite, c8RootEvent, c8MiddleEvent, c8LeafEvent]

/-- C8 (amended): every suite node in every reachable state of the
top-level list comes from a suite that is itself valid — `_onSuiteBegin`
pushes a node exactly for valid suites — but a descendant of an invalid
suite still appears whenever it is valid on its own (for the
zero-tests-and-zero-children branch of invalidity the exclusion of
descendants is vacuous, such suites having none). -/
theorem onSuiteBegin_pushes_valid_only :
    ∀ evs : List SuiteEvent,
      (processSuiteEvents evs).all (fun e => !isInvalidSuite e) = true := by
  intro evs
  suffices h : ∀ acc : List SuiteEvent, acc.all (fun e => !isInvalidSuite e) = true →
      (evs.foldl (fun acc e => if isInvalidSuite e then acc else acc ++ [e])
        acc).all (fun e => !isInvalidSuite e) = true by
    exact h [] rfl
  induction evs with
  | nil => intro acc h; exact h
  | cons e rest ih =>
    intro acc h
    simp only [List.foldl_cons]
    by_cases he : isInvalidSuite e
    · simpa [he] using ih acc h
    · have hall : (acc ++ [e]).all (fun x => !isInvalidSuite x) = true := by
        simp [List.all_append, h, he]
      simpa [he] using ih (acc ++ [e]) hall

/-- The inner finalize fold, characterized: it counts testcases whose last
child is a `skipped` marker, testcases whose last child is a `failure`
entry, and maps the guarded time formatting over the testcases. -/
theorem finalizeSuite_fold (cases : List TestcaseRec) :
    ∀ (a b : Int) (l : List TestcaseRec),
      cases.foldl
        (fun (acc : Int × Int × List TestcaseRec) tc =>
          (acc.1 + (if lastNodeHasSkipped tc then 1 else 0),
           acc.2.1 + (if lastNodeHasFailure tc then 1 else 0),
           acc.2.2 ++ [finalizeCase tc])) (a, b, l)
      = (a + (cases.countP lastNodeHasSkipped : Int),
         b + (cases.countP lastNodeHasFailure : Int),
         l ++ cases.map finalizeCase) := by
  induction cases with
  | nil => intro a b l; simp
  | cons tc rest ih =>
    intro a b l
    by_cases h1 : lastNodeHasSkipped tc <;> by_cases h2 : lastNodeHasFailure tc <;>
      simp [List.countP_cons, h1, h2, ih, List.append_assoc, Prod.ext_iff] <;>
        omega

/-- Lemma: `finalizeSuite`, characterized field by field. -/
theorem finalizeSuite_spec (s : SuiteRec) :
    finalizeSuite s
      = { attr := { s.attr with
            time := .str (fixed3 (jsDiv1000OrZero s.attr.time)),
            failures := some (s.cases.countP lastNodeHasFailure : Int),
            skipped := if s.cases.countP lastNodeHasSkipped = 0 then none
              else some (s.cases.countP lastNodeHasSkipped : Int) }
          cases := s.cases.map finalizeCase } := by
  simp only [finalizeSuite, finalizeSuite_fold s.cases 0 0 []]
  simp only [zero_add, List.nil_append]
  by_cases h : s.cases.countP lastNodeHasSkipped = 0 <;>
    simp [SuiteRec.mk.injEq, SuiteAttr.mk.injEq, h, Nat.cast_eq_zero]

/-- The accumulator form of `getXmlPass`. -/
theorem getXmlPass_acc (suites : List SuiteRec) :
    ∀ (l : List SuiteRec) (t : Int),
      (suites.foldl
        (fun (acc : List SuiteRec × Int) s =>
          let s' := finalizeSuite s
          (acc.1 ++ [s'], acc.2 + s'.attr.tests)) (l, t)).1
      = l ++ suites.map finalizeSuite := by
  induction suites with
  | nil => intro l t; simp
  | cons s rest ih =>
    intro l t
    simp only [List.foldl_cons, List.map_cons]
    rw [ih]
    simp [List.append_assoc]

/-- C1 counterexample: a testcase whose children are `[failure,
system-out]` has a `failure` entry among its children, yet the finalize
pass leaves the suite's `failures` attribute at 0 — the code inspects only
the *last* child (`"failure" in lastNode`), so the claim's "failures is
incremented whenever any child of a testcase is a failure entry" fails at
this input. -/
theorem getXml_failures_ignore_nonlast :
    ((getXmlPass [c1Suite]).1.map (fun s => s.attr.failures)) = [some 0]
    ∧ c1Case.children.any isFailureChild = true
    ∧ c1Suite.cases = [c1Case]
    ∧ lastNodeHasFailure c1Case = false := by
  refine ⟨?_, rfl, rfl, rfl⟩
  simp only [getXmlPass, getXmlPass_acc [c1Suite] [] 0]
  simp [finalizeSuite_spec, c1Suite, c1Case, List.countP_cons,
    lastNodeHasFailure]

/-- C1 (amended): for every suite processed by the finalize pass,
`failures` and `skipped` are reset and recomputed from the testcase
children — each counter incremented exactly when the *last* child of a
testcase is, respectively, a `failure` entry or a `skipped` marker; after
the scan the `skipped` attribute is removed entirely when zero while
`failures` is always emitted; prior values of both attributes are
irrelevant. -/
theorem getXml_rollup :
    (∀ suites : List SuiteRec, (getXmlPass suites).1 = suites.map finalizeSuite)
    ∧ (∀ s : SuiteRec, (finalizeSuite s).attr.failures
        = some (s.cases.countP lastNodeHasFailure : Int))
    ∧ (∀ s : SuiteRec, (finalizeSuite s).attr.skipped
        = if s.cases.countP lastNodeHasSkipped = 0 then none
          else some (s.cases.countP lastNodeHasSkipped : Int))
    ∧ (∀ (s : SuiteRec) (f k : Option Int),
        finalizeSuite { s with attr := { s.attr with failures := f, skipped := k } }
          = finalizeSuite s) := by
  refine ⟨?_, ?_, ?_, ?_⟩
  · intro suites
    simp only [getXmlPass, getXmlPass_acc suites [] 0, List.nil_append]
  · intro s
    rw [finalizeSuite_spec]
  · intro s
    rw [finalizeSuite_spec]
  · intro s f k
    rw [finalizeSuite_spec, finalizeSuite_spec]

/-- C5 counterexample: finalizing a completed suite with a 1 ms duration
formats its `time` to the string "0.001"; running the finalize pass again
coerces that string back to a number, divides by 1000 once more and
reformats, leaving "0.000" — a `time` field that was already a string
after the first pass is NOT left untouched by the second pass. -/
theorem getXml_double_pass_reformats_suite_time :
    (finalizeSuite c5Suite).attr.time = .str "0.001"
    ∧ (finalizeSuite (finalizeSuite c5Suite)).attr.time = .str "0.000" := by
  have h1 : jsDiv1000OrZero (JsTime.num 1) = 1 / 1000 := by
    norm_num [jsDiv1000OrZero]
  have hf1 : fixed3 (1 / 1000) = "0.001" := by
    rw [fixed3_eval _ 1 (by rw [Int.floor_eq_iff] ; norm_num)]
    decide
  have h2 : jsStringToNumber "0.001" = some (1 / 1000) := by
    simp [jsStringToNumber, trimChars, splitOnChar, digitsToNat]
    norm_num
  have h3 : jsDiv1000OrZero (JsTime.str "0.001") = 1 / 1000 / 1000 := by
    simp [jsDiv1000OrZero, h2]
  have hf2 : fixed3 ((1 : ℚ) / 1000 / 1000) = "0.000" := by
    rw [fixed3_eval _ 0 (by rw [Int.floor_eq_iff] ; norm_num)]
    decide
  have hfirst : (finalizeSuite c5Suite).attr.time = .str "0.001" := by
    simp only [finalizeSuite_spec, c5Suite]
    rw [h1, hf1]
  refine ⟨hfirst, ?_⟩
  rw [finalizeSuite_spec, finalizeSuite_spec]
  simp only [c5Suite]
  rw [h1, hf1, h3, hf2]

/-- Lemma: `finalizeCaseTime` is idempotent: an already-string (or undefined) time
is left as is, and a freshly formatted number is a string. -/
theorem finalizeCaseTime_idem (t : JsTime) :
    finalizeCaseTime (finalizeCaseTime t) = finalizeCaseTime t := by
  cases t <;> rfl

/-- C5 (amended): the finalize pass can be run a second time on the same
already-finalized tree without throwing — the `typeof` guard makes the
testcase `toFixed` call a no-op on strings rather than an error, and every
*testcase* `time` field that is a string after the first pass is left
untouched by the second pass; the suite-level `time` attribute, by
contrast, is recomputed from the coerced string (see the
counterexample). -/
theorem getXml_second_pass :
    (∀ t : JsTime, finalizeCaseTimeE t = Except.ok (finalizeCaseTime t))
    ∧ (∀ s : String, finalizeCaseTime (.str s) = .str s)
    ∧ (∀ su : SuiteRec,
        (finalizeSuite (finalizeSuite su)).cases.map (fun tc => tc.attr.time)
          = (finalizeSuite su).cases.map (fun tc => tc.attr.time)) := by
  refine ⟨fun t => by cases t <;> rfl, fun s => rfl, ?_⟩
  intro su
  rw [finalizeSuite_spec, finalizeSuite_spec]
  simp only [List.map_map]
  refine List.map_congr_left ?_
  intro tc _
  simp only [Function.comp_apply, finalizeCase]
  exact finalizeCaseTime_idem tc.attr.time

/-- Lemma: `siblingList` renders each array item independently as one
element — short-circuiting on the first thrown error — and concatenates
the results. -/
theorem siblingList_eq_mapM (c : XmlConsts) (o : XmlOptions) (depth : Nat)
    (key : String) :
    ∀ l : List JVal, siblingList c o depth key l
      = (l.mapM (buildXmlElement c o depth key)).map
          (fun ss => ss.foldr (· ++ ·) "") := by
  intro l
  induction l with
  | nil =>
    simp only [siblingList]
    rfl
  | cons v vs ih =>
    simp only [siblingList, ih, List.mapM_cons]
    cases h : buildXmlElement c o depth key v <;>
      cases h2 : vs.mapM (buildXmlElement c o depth key) <;>
        simp [h, h2, Except.map, Except.bind, Bind.bind, Pure.pure, Except.pure]

/-- C9: the XML builder renders `null`/`undefined` content as the
self-closing `<tag/>` line; a record containing only attributes renders as
an explicit open/close pair with a newline and the closing tag indented —
never self-closing; and the CDATA rule takes precedence, so a record with
attributes and CDATA renders in CDATA form. None of these forms can
throw. -/
theorem buildXmlElement_empty_forms :
    (∀ (o : XmlOptions) (depth : Nat) (tag : String),
      buildXmlElement constantsCopyConsts o depth tag .jnull
        = Except.ok (strRepeat (getIndent constantsCopyConsts o) depth
            ++ "<" ++ tag ++ "/>\n"))
    ∧ (∀ (o : XmlOptions) (depth : Nat) (tag : String),
      buildXmlElement constantsCopyConsts o depth tag .jundefined
        = Except.ok (strRepeat (getIndent constantsCopyConsts o) depth
            ++ "<" ++ tag ++ "/>\n"))
    ∧ (∀ (o : XmlOptions) (depth : Nat) (tag : String)
        (pairs : List (String × JVal)),
      buildXmlElement constantsCopyConsts o depth tag (.jobj [("_attr", .jobj pairs)])
        = Except.ok (strRepeat (getIndent constantsCopyConsts o) depth ++ "<" ++ tag
            ++ renderAttrPairs constantsCopyConsts pairs ++ ">\n"
            ++ strRepeat (getIndent constantsCopyConsts o) depth ++ "</" ++ tag ++ ">\n"))
    ∧ (∀ (o : XmlOptions) (depth : Nat) (tag : String)
        (pairs : List (String × JVal)) (s : String),
      buildXmlElement constantsCopyConsts o depth tag
          (.jobj [("_attr", .jobj pairs), ("_cdata", .jstr s)])
        = Except.ok (strRepeat (getIndent constantsCopyConsts o) depth ++ "<" ++ tag
            ++ renderAttrPairs constantsCopyConsts pairs ++ "><![CDATA[" ++ s
            ++ "]]></" ++ tag ++ ">\n")) := by
  refine ⟨fun o depth tag => ?_, fun o depth tag => ?_,
    fun o depth tag pairs => ?_, fun o depth tag pairs s => ?_⟩
  · simp [buildXmlElement]
  · simp [buildXmlElement]
  · simp [buildXmlElement, attrString, jsOptChain, jsLookup, List.lookup,
      Option.getD, isUndefined, jsKeys, jsEntries, jsTruthy, jsToString,
      constantsCopyConsts]
  · simp [buildXmlElement, attrString, jsOptChain, jsLookup, List.lookup,
      Option.getD, isUndefined, jsKeys, jsEntries, jsTruthy, jsToString,
      constantsCopyConsts]

/-- C2 counterexample: item 0 of `c2Items` carries `_cdata` next to
`_attr`, so by the claim the array must render as sibling elements; the
builder nevertheless takes the wrapper path (it only checks that
`value[0]?._attr` is truthy), producing one `<k>` wrapper — and dropping
item 0's CDATA — instead of the sibling rendering. -/
theorem buildXml_wrapper_ignores_cdata :
    specWrapperCond c2Items = false
    ∧ buildXml constantsCopyConsts ⟨false, none⟩ 0 c2Input
        = Except.ok "<k a=\"1\">\n  <child>y</child>\n</k>\n"
    ∧ buildXml constantsCopyConsts ⟨false, none⟩ 0 c2Input
        ≠ siblingList constantsCopyConsts ⟨false, none⟩ 0 "k" c2Items := by
  have hb : buildXml constantsCopyConsts ⟨false, none⟩ 0 c2Input
      = Except.ok "<k a=\"1\">\n  <child>y</child>\n</k>\n" := by
    simp [buildXml, buildXmlList, buildFields, buildArrayValue, siblingList,
      buildXmlElement, wrapperCheck, someObjectWithoutAttr, c2Input, c2Items,
      constantsCopyConsts, jsOptChain, jsLookup, jsTruthy, jsTypeofIsObject,
      attrString, renderAttrPairs, jsEntries, xmlEscape, jsToString, jsReplaceAll,
      replaceAllFuel, isUndefined, jsKeys, getIndent, strRepeat, trimChars,
      List.lookup, Option.getD]
    decide
  have hs : siblingList constantsCopyConsts ⟨false, none⟩ 0 "k" c2Items
      = Except.ok "<k a=\"1\"><![CDATA[x]]></k>\n<k><child>y</child></k>\n" := by
    simp [buildXml, buildXmlList, buildFields, buildArrayValue, siblingList,
      buildXmlElement, wrapperCheck, someObjectWithoutAttr, c2Items,
      constantsCopyConsts, jsOptChain, jsLookup, jsTruthy, jsTypeofIsObject,
      attrString, renderAttrPairs, jsEntries, xmlEscape, jsToString, jsReplaceAll,
      replaceAllFuel, isUndefined, jsKeys, getIndent, strRepeat, trimChars,
      List.lookup, Option.getD]
    decide
  refine ⟨by decide, hb, ?_⟩
  rw [hb, hs]
  simp only [ne_eq, Except.ok.injEq]
  decide

/-- C2 (amended): an array value under a key first runs the source's
structural wrapper test — item 0's `_attr` member must be truthy and the
scan of later items must find one of object type without a truthy `_attr`,
a scan that throws a `TypeError` (propagated, nothing rendered) if it
reaches a `null` tail item before deciding; when the test holds, the array
renders as a single wrapper element (tag = the key, attributes from item
0 — any `_cdata` or further keys on it are ignored and dropped — children
= items 1..N at depth+1); when the test settles false, the array renders
as independent sibling elements sharing the key as tag name at the
current depth. -/
theorem buildXml_array_dispatch :
    (∀ (o : XmlOptions) (depth : Nat) (key : String) (items : List JVal),
      wrapperCheck constantsCopyConsts items = Except.ok false →
      buildArrayValue constantsCopyConsts o depth key items
        = (items.mapM (buildXmlElement constantsCopyConsts o depth key)).map
            (fun ss => ss.foldr (· ++ ·) ""))
    ∧ (∀ (o : XmlOptions) (depth : Nat) (key : String) (first : JVal)
        (rest : List JVal),
      wrapperCheck constantsCopyConsts (first :: rest) = Except.ok true →
      buildArrayValue constantsCopyConsts o depth key (first :: rest)
        = (buildXmlList constantsCopyConsts o (depth + 1) rest).map
            (fun childrenXml =>
              strRepeat (getIndent constantsCopyConsts o) depth ++ "<" ++ key
                ++ renderAttrPairs constantsCopyConsts
                    (jsEntries (jsOptChain first "_attr")) ++ ">\n"
                ++ childrenXml
                ++ strRepeat (getIndent constantsCopyConsts o) depth
                ++ "</" ++ key ++ ">\n"))
    ∧ (∀ (o : XmlOptions) (depth : Nat) (key : String) (items : List JVal)
        (e : String),
      wrapperCheck constantsCopyConsts items = Except.error e →
      buildArrayValue constantsCopyConsts o depth key items = Except.error e) := by
  refine ⟨?_, ?_, ?_⟩
  · intro o depth key items h
    cases items with
    | nil =>
      simp only [buildArrayValue]
      rfl
    | cons first rest =>
      rw [← siblingList_eq_mapM constantsCopyConsts o depth key (first :: rest)]
      simp only [buildArrayValue, h]
  · intro o depth key first rest h
    simp only [buildArrayValue, h]
    cases hb : buildXmlList constantsCopyConsts o (depth + 1) rest <;>
      simp [hb, Except.map]
    rfl
  · intro o depth key items e h
    cases items with
    | nil => simp [wrapperCheck] at h
    | cons first rest => simp only [buildArrayValue, h]

/-- C2 witness: the dispatch theorem applied to concrete arrays — the
mixed `_attr`+`_cdata` array takes the wrapper path, a plain string array
takes the sibling path, and an array with a `null` tail item after an
`_attr`-carrying item 0 makes the wrapper scan throw. -/
theorem buildXml_array_dispatch_witness :
    wrapperCheck constantsCopyConsts c2Items = Except.ok true
    ∧ buildArrayValue constantsCopyConsts ⟨false, none⟩ 0 "k" c2Items
        = (buildXmlList constantsCopyConsts ⟨false, none⟩ 1
            [.jobj [("child", .jstr "y")]]).map
            (fun childrenXml =>
              strRepeat (getIndent constantsCopyConsts ⟨false, none⟩) 0 ++ "<" ++ "k"
                ++ renderAttrPairs constantsCopyConsts
                    (jsEntries (jsOptChain
                      (.jobj [("_attr", .jobj [("a", .jstr "1")]),
                              ("_cdata", .jstr "x")]) "_attr")) ++ ">\n"
                ++ childrenXml
                ++ strRepeat (getIndent constantsCopyConsts ⟨false, none⟩) 0
                ++ "</" ++ "k" ++ ">\n")
    ∧ wrapperCheck constantsCopyConsts [JVal.jstr "a", JVal.jstr "b"] = Except.ok false
    ∧ buildArrayValue constantsCopyConsts ⟨false, none⟩ 0 "t"
          [JVal.jstr "a", JVal.jstr "b"]
        = ([JVal.jstr "a", JVal.jstr "b"].mapM
            (buildXmlElement constantsCopyConsts ⟨false, none⟩ 0 "t")).map
            (fun ss => ss.foldr (· ++ ·) "")
    ∧ wrapperCheck constantsCopyConsts
        [.jobj [("_attr", .jobj [("a", .jstr "1")])], .jnull]
        = Except.error "TypeError: Cannot read properties of null (reading '_attr')"
    ∧ buildArrayValue constantsCopyConsts ⟨false, none⟩ 0 "k"
        [.jobj [("_attr", .jobj [("a", .jstr "1")])], .jnull]
        = Except.error "TypeError: Cannot read properties of null (reading '_attr')" := by
  refine ⟨rfl, ?_, rfl, ?_, rfl, ?_⟩
  · exact buildXml_array_dispatch.2.1 ⟨false, none⟩ 0 "k"
      (.jobj [("_attr", .jobj [("a", .jstr "1")]), ("_cdata", .jstr "x")])
      [.jobj [("child", .jstr "y")]] rfl
  · exact buildXml_array_dispatch.1 ⟨false, none⟩ 0 "t"
      [JVal.jstr "a", JVal.jstr "b"] rfl
  · exact buildXml_array_dispatch.2.2 ⟨false, none⟩ 0 "k"
      [.jobj [("_attr", .jobj [("a", .jstr "1")])], .jnull]
      "TypeError: Cannot read properties of null (reading '_attr')" rfl

/-- C10: the two XML builder copies are extensionally equal — the entity
fold of the constant-driven `escapeXml` equals the inline copy's chained
replacements on every value, the two literal records coincide, and the
shared builder body instantiated with either record produces identical
strings for every input and option. -/
theorem xml_builder_copies_agree :
    (∀ v : JVal, xmlEscape constantsCopyConsts v = escapeXmlInline v)
    ∧ constantsCopyConsts = inlineCopyConsts
    ∧ (∀ (o : XmlOptions) (depth : Nat) (v : JVal),
        buildXml constantsCopyConsts o depth v = buildXml inlineCopyConsts o depth v)
    ∧ (∀ (o : XmlOptions) (depth : Nat) (tag : String) (v : JVal),
        buildXmlElement constantsCopyConsts o depth tag v
          = buildXmlElement inlineCopyConsts o depth tag v)
    ∧ (∀ (o : XmlOptions) (v : JVal),
        toXml constantsCopyConsts o v = toXml inlineCopyConsts o v) := by
  have hc : constantsCopyConsts = inlineCopyConsts := rfl
  refine ⟨?_, hc, fun o depth v => by rw [hc], fun o depth tag v => by rw [hc],
    fun o v => by rw [hc]⟩
  intro v
  cases v <;> rfl

end MochaGitLab
